import Mathlib

/-!
Shallow embedding of the Library Catalog data layer (`db.py`) and the
relevant part of its HTTP front end (`webapp.py`).

Modelling conventions:
* SQLite rows are Lean structures; tables are lists of rows kept in
  insertion order; `AUTOINCREMENT` primary keys are modelled by the
  `next*Id` counters (SQLite's `AUTOINCREMENT` never reuses ids).
* Dates are ISO-8601 strings (the code stores `date.isoformat()` and
  compares dates lexicographically); the ambient `date.today()` is made
  explicit as a `today : String` parameter.
* `PRAGMA foreign_keys` is per-connection state in SQLite, OFF by
  default; `Database.__init__` does not set it and `create_tables` turns
  it on for its own connection only.  The `fkOn` field records it, and
  `ON DELETE CASCADE` in `delete_book` fires only when it is set.
* Python exceptions are `Except` values carrying the store state at
  raise time, so "the store is unchanged on failure" is expressible.
* Python's dynamically typed `return_date` argument (a `date`, a `str`
  or `None`) is the sum type `PyDateArg`; `str.isoformat()` does not
  exist, which the code path models as an `AttributeError`.
-/

namespace LibCat

structure Author where
  id : Nat
  name : String
deriving DecidableEq, Repr

structure Book where
  id : Nat
  title : String
  author_id : Nat
  qty : Int
deriving DecidableEq, Repr

structure Loan where
  id : Nat
  book_id : Nat
  borrower : String
  loan_date : String
  return_date : Option String
deriving DecidableEq, Repr

/-- The state visible to one `Database` connection: the file contents
(three tables plus the autoincrement counters) and the connection's
`PRAGMA foreign_keys` flag. -/
structure DbState where
  authors : List Author
  books : List Book
  loans : List Loan
  nextAuthorId : Nat
  nextBookId : Nat
  nextLoanId : Nat
  fkOn : Bool
deriving DecidableEq, Repr

/-- A freshly created, empty store as seen by a new connection
(`Database.__init__` does not enable foreign keys). -/
def emptyState : DbState :=
  { authors := [], books := [], loans := [], nextAuthorId := 1,
    nextBookId := 1, nextLoanId := 1, fkOn := false }

/-- `Database.create_tables`: idempotent schema creation; its
`PRAGMA foreign_keys = ON` enables cascades on this connection. -/
def create_tables (s : DbState) : DbState := { s with fkOn := true }

/-- `Database.__init__` on an already-populated file: same data, fresh
connection with foreign keys back at SQLite's default (off). -/
def newConnection (s : DbState) : DbState := { s with fkOn := false }

/-- Python exceptions raised by the code paths we model. -/
inductive PyErr where
  | valueError (msg : String)
  | attributeError (msg : String)
deriving DecidableEq, Repr

/-- Result of a data-layer call: either a value together with the store
after the call, or the exception together with the store at raise time. -/
abbrev DbRes (α : Type) := Except (PyErr × DbState) (α × DbState)

/-- `SELECT ... FROM books WHERE id = ?` followed by `fetchone()`. -/
def findBook (s : DbState) (book_id : Nat) : Option Book :=
  s.books.find? (fun b => b.id == book_id)

/-- `SELECT ... FROM loans WHERE id = ?` followed by `fetchone()`. -/
def findLoan (s : DbState) (loan_id : Nat) : Option Loan :=
  s.loans.find? (fun l => l.id == loan_id)

/-- `UPDATE books SET qty = qty + ? WHERE id = ?` (hits every row whose
id matches; ids are unique in any state SQLite can hold). -/
def updateQty (books : List Book) (book_id : Nat) (delta : Int) : List Book :=
  books.map (fun b => if b.id == book_id then { b with qty := b.qty + delta } else b)

/-- `UPDATE loans SET return_date = ? WHERE id = ?`. -/
def setReturnDate (loans : List Loan) (loan_id : Nat) (d : String) : List Loan :=
  loans.map (fun l => if l.id == loan_id then { l with return_date := some d } else l)

/-- The qty column of the book row with the given id, if any. -/
def qtyOf (s : DbState) (book_id : Nat) : Option Int :=
  (findBook s book_id).map Book.qty

/-- `Database.add_author`: `INSERT OR IGNORE` on the UNIQUE name column,
then `SELECT id ... WHERE name = ?` and `fetchone()[0]`. -/
def add_author (s : DbState) (name : String) : Nat × DbState :=
  let s₁ :=
    if s.authors.any (fun a => a.name == name) then s
    else { s with authors := s.authors ++ [⟨s.nextAuthorId, name⟩],
                  nextAuthorId := s.nextAuthorId + 1 }
  -- after the INSERT OR IGNORE a row with this name always exists, so
  -- fetchone() is never None; the getD default is unreachable
  (((s₁.authors.find? (fun a => a.name == name)).map Author.id).getD 0, s₁)

/-- `Database.add_book`: resolve the author, then insert the book row
with the caller-supplied qty (no ≥ 0 check at the data layer). -/
def add_book (s : DbState) (title author_name : String) (qty : Int) : Nat × DbState :=
  let r := add_author s author_name
  let s₁ := r.2
  (s₁.nextBookId,
   { s₁ with books := s₁.books ++ [⟨s₁.nextBookId, title, r.1, qty⟩],
             nextBookId := s₁.nextBookId + 1 })

/-- `Database.update_book`: partial update; supplying no field returns
before any SQL runs; an author name is resolved (created if missing). -/
def update_book (s : DbState) (book_id : Nat)
    (title : Option String) (author_name : Option String) (qty : Option Int) : DbState :=
  if title.isNone && author_name.isNone && qty.isNone then s
  else
    let r : Option Nat × DbState :=
      match author_name with
      | some an => let ra := add_author s an; (some ra.1, ra.2)
      | none => (none, s)
    let s₁ := r.2
    { s₁ with books := s₁.books.map (fun b =>
        if b.id == book_id then
          { b with title := title.getD b.title,
                   author_id := (r.1).getD b.author_id,
                   qty := qty.getD b.qty }
        else b) }

/-- `Database.delete_book`: `DELETE FROM books WHERE id = ?`; the
schema's `ON DELETE CASCADE` removes the book's loans, but only when
this connection has foreign-key enforcement on. -/
def delete_book (s : DbState) (book_id : Nat) : DbState :=
  let s₁ := { s with books := s.books.filter (fun b => !(b.id == book_id)) }
  if s.fkOn then { s₁ with loans := s₁.loans.filter (fun l => !(l.book_id == book_id)) }
  else s₁

/-- One row of `Database.get_books`' join result. -/
structure BookRow where
  id : Nat
  title : String
  author : String
  qty : Int
deriving DecidableEq, Repr

/-- Does the character list start with the given sequence? -/
def startsWithSeq : List Char → List Char → Bool
  | _, [] => true
  | [], _ :: _ => false
  | a :: as, b :: bs => a == b && startsWithSeq as bs

/-- Does the character list contain the given contiguous sequence? -/
def containsSeq : List Char → List Char → Bool
  | [], needle => needle.isEmpty
  | a :: as, needle => startsWithSeq (a :: as) needle || containsSeq as needle

/-- SQLite `LIKE '%needle%'` on the title (ASCII case-insensitive). -/
def likeContains (hay needle : String) : Bool :=
  containsSeq hay.toLower.toList needle.toLower.toList

/-- `Database.get_books`: inner join with authors, optionally filtered
by `title LIKE '%t%'`.  Python's `if title_like:` treats both `None`
and the empty string as "no filter". -/
def get_books (s : DbState) (title_like : Option String) : List BookRow :=
  let rows := s.books.filterMap (fun b =>
    (s.authors.find? (fun a => a.id == b.author_id)).map
      (fun a => BookRow.mk b.id b.title a.name b.qty))
  match title_like with
  | some t => if t = "" then rows else rows.filter (fun r => likeContains r.title t)
  | none => rows

/-- `Database.loan_book`: check existence and availability before any
write; on success insert the loan row (null return date) and decrement
qty, returning the new loan's id (`cur.lastrowid`). -/
def loan_book (today : String) (s : DbState) (book_id : Nat)
    (borrower : String) (loan_date : Option String) : DbRes Nat :=
  let ld := loan_date.getD today   -- loan_date or date.today()
  match findBook s book_id with
  | none => .error (.valueError "book not found", s)
  | some b =>
    if b.qty ≤ 0 then .error (.valueError "no copies available", s)
    else
      let lid := s.nextLoanId
      .ok (lid,
        { s with loans := s.loans ++ [⟨lid, book_id, borrower, ld, none⟩],
                 nextLoanId := lid + 1,
                 books := updateQty s.books book_id (-1) })

/-- Python's dynamically typed `return_date` argument. -/
inductive PyDateArg where
  | dateObj (d : String)
  | strVal (v : String)
  | noneVal
deriving DecidableEq, Repr

/-- `(return_date or date.today()).isoformat()`: `None` and the empty
string are falsy and fall back to today; a `date` formats itself; a
non-empty `str` has no `isoformat` and raises `AttributeError`. -/
def pyResolveDate (today : String) : PyDateArg → Except PyErr String
  | .dateObj d => .ok d
  | .strVal v =>
      if v = "" then .ok today
      else .error (.attributeError "'str' object has no attribute 'isoformat'")
  | .noneVal => .ok today

/-- Injection of the CLI-style `Optional[date]` argument. -/
def argOfOpt : Option String → PyDateArg
  | some d => .dateObj d
  | none => .noneVal

/-- `Database.return_loan`: resolve the date (line 137, before any
SQL), look the loan up, then set its return date and increment the
book's qty; no guard against an already-set return date. -/
def return_loan (today : String) (s : DbState) (loan_id : Nat)
    (return_date : PyDateArg) : DbRes Unit :=
  match pyResolveDate today return_date with
  | .error e => .error (e, s)
  | .ok rd =>
    match findLoan s loan_id with
    | none => .error (.valueError "loan not found", s)
    | some l =>
      .ok ((),
        { s with loans := setReturnDate s.loans loan_id rd,
                 books := updateQty s.books l.book_id 1 })

/-- `Database.delete_loan`: plain delete; book qty is not adjusted. -/
def delete_loan (s : DbState) (loan_id : Nat) : DbState :=
  { s with loans := s.loans.filter (fun l => !(l.id == loan_id)) }

/-- `Database.book_loan_counts`: inner join with authors, LEFT JOIN
loans, `COUNT(l.id)` per book, `ORDER BY times_loaned DESC` (tie order
unspecified in SQL; modelled by a stable sort). -/
def book_loan_counts (s : DbState) : List (Nat × String × String × Nat) :=
  let rows := s.books.filterMap (fun b =>
    (s.authors.find? (fun a => a.id == b.author_id)).map
      (fun a => (b.id, b.title, a.name,
                 (s.loans.filter (fun l => l.book_id == b.id)).length)))
  List.insertionSort (fun x y => y.2.2.2 ≤ x.2.2.2) rows

/-- `Database.loan_aggregates`: `COUNT(*)` over the loans table, and
`AVG(cnt)` over per-`book_id` counts (NULL coalesced to 0 by
`or 0.0`); SQLite's double-precision average is modelled exactly in ℚ. -/
def loan_aggregates (s : DbState) : Nat × ℚ :=
  let total := s.loans.length
  let groups := (s.loans.map Loan.book_id).dedup
  let counts := groups.map (fun bid => (s.loans.filter (fun l => l.book_id == bid)).length)
  (total, if counts.isEmpty then 0 else ((counts.sum : ℚ) / (counts.length : ℚ)))

/-- Code-point-wise lexicographic comparison of character lists —
SQLite compares TEXT values bytewise, which on ASCII ISO-8601 dates is
exactly this order. -/
def charListLe : List Char → List Char → Bool
  | [], _ => true
  | _ :: _, [] => false
  | a :: as, b :: bs =>
    if a.toNat < b.toNat then true
    else if b.toNat < a.toNat then false
    else charListLe as bs

/-- SQLite's TEXT ordering on ISO-8601 date strings. -/
def dateLe (a b : String) : Bool := charListLe a.toList b.toList

/-- `Database.loans_in_date_range`: inner join with books, inclusive
lexicographic BETWEEN on the loan date, ordered by loan date. -/
def loans_in_date_range (s : DbState) (from_date to_date : String) :
    List (Nat × String × String × String × Option String) :=
  let rows := s.loans.filterMap (fun l =>
    if dateLe from_date l.loan_date && dateLe l.loan_date to_date then
      (s.books.find? (fun b => b.id == l.book_id)).map
        (fun b => (l.id, b.title, l.borrower, l.loan_date, l.return_date))
    else none)
  List.insertionSort (fun x y => dateLe x.2.2.2.1 y.2.2.2.1 = true) rows

/-! ### Helper lemmas -/

/-- `find?` by a key commutes with mapping a key-preserving update over
the list (the shape of every `UPDATE ... WHERE id = ?` in the model). -/
theorem find?_map_key {α : Type} (key : α → Nat) (f : α → α)
    (hf : ∀ a, key (f a) = key a) (l : List α) (i : Nat) :
    (l.map f).find? (fun a => key a == i) = (l.find? (fun a => key a == i)).map f := by
  induction l with
  | nil => rfl
  | cons a as ih =>
    simp only [List.map_cons, List.find?, hf]
    cases hk : (key a == i) <;> simp [ih]

/-- The CLI-style `Optional[date]` argument always resolves, to the
given date or to today. -/
theorem pyResolveDate_argOfOpt (today : String) (rd : Option String) :
    pyResolveDate today (argOfOpt rd) = .ok (rd.getD today) := by
  cases rd <;> rfl

/-- Number of author rows with a given name. -/
def countAuthors (s : DbState) (name : String) : Nat :=
  (s.authors.filter (fun a => a.name == name)).length

/-- The store after the successful body of `return_loan`: loan `lid`
stamped with date `d`, book `bid`'s qty incremented. -/
def afterReturn (s : DbState) (lid : Nat) (d : String) (bid : Nat) : DbState :=
  { s with loans := setReturnDate s.loans lid d,
           books := updateQty s.books bid 1 }

theorem find?_updateQty (books : List Book) (j i : Nat) (d : Int) :
    (updateQty books j d).find? (fun x => x.id == i) =
      (books.find? (fun x => x.id == i)).map
        (fun b => if b.id == j then { b with qty := b.qty + d } else b) := by
  unfold updateQty
  exact find?_map_key Book.id _ (fun b => by cases h : (b.id == j) <;> simp [h]) books i

theorem find?_setReturnDate (loans : List Loan) (j i : Nat) (d : String) :
    (setReturnDate loans j d).find? (fun x => x.id == i) =
      (loans.find? (fun x => x.id == i)).map
        (fun l => if l.id == j then { l with return_date := some d } else l) := by
  unfold setReturnDate
  exact find?_map_key Loan.id _ (fun l => by cases h : (l.id == j) <;> simp [h]) loans i

/-- `add_author` when a row with the name already exists: no insert. -/
theorem add_author_of_any_eq_true (t : DbState) (name : String)
    (h : t.authors.any (fun a => a.name == name) = true) :
    add_author t name =
      (((t.authors.find? (fun a => a.name == name)).map Author.id).getD 0, t) := by
  simp only [add_author]
  rw [if_pos h]

/-- `add_author` when no row with the name exists: a row is appended. -/
theorem add_author_of_any_eq_false (t : DbState) (name : String)
    (h : t.authors.any (fun a => a.name == name) = false) :
    add_author t name =
      ((((t.authors ++ [Author.mk t.nextAuthorId name]).find?
          (fun a => a.name == name)).map Author.id).getD 0,
       { t with authors := t.authors ++ [Author.mk t.nextAuthorId name],
                nextAuthorId := t.nextAuthorId + 1 }) := by
  simp only [add_author]
  rw [if_neg (by simp [h])]

/-! ### C10 -/

/-- C10: `get_books` with the empty string as the title filter returns
exactly the same result as `get_books` with no filter — Python's
`if title_like:` treats the empty string as absent. -/
theorem get_books_empty_filter_eq_none (s : DbState) :
    get_books s (some "") = get_books s none := rfl

/-- `loan_book` when the id matches no book row: raised before any
write. -/
theorem loan_book_of_not_found (today : String) (s : DbState) (bid : Nat)
    (br : String) (ld : Option String) (h : findBook s bid = none) :
    loan_book today s bid br ld = .error (.valueError "book not found", s) := by
  simp [loan_book, h]

/-- `loan_book` when the book is out of stock: raised before any
write. -/
theorem loan_book_of_unavailable (today : String) (s : DbState) (bid : Nat)
    (br : String) (ld : Option String) (b : Book)
    (hb : findBook s bid = some b) (hle : b.qty ≤ 0) :
    loan_book today s bid br ld = .error (.valueError "no copies available", s) := by
  simp [loan_book, hb, hle]

/-- `loan_book` on an available book: the inserted row and the
decrement. -/
theorem loan_book_of_available (today : String) (s : DbState) (bid : Nat)
    (br : String) (ld : Option String) (b : Book)
    (hb : findBook s bid = some b) (hpos : 0 < b.qty) :
    loan_book today s bid br ld = .ok (s.nextLoanId,
      { s with loans := s.loans ++ [⟨s.nextLoanId, bid, br, ld.getD today, none⟩],
               nextLoanId := s.nextLoanId + 1,
               books := updateQty s.books bid (-1) }) := by
  simp [loan_book, hb, not_le.mpr hpos]

/-! ### C1 -/

/-- C1: `loan_book` fails with "book not found" when no book row has
the requested id and with "no copies available" when the book's qty is
≤ 0, leaving the store unchanged in both cases; on success it returns
the fresh loan id, appends exactly one loan row with the given-or-today
loan date and a null return date, and decrements that book's qty by
exactly one. -/
theorem loan_book_spec (today : String) (s : DbState) (bid : Nat)
    (br : String) (ld : Option String) :
    (findBook s bid = none →
      loan_book today s bid br ld = .error (.valueError "book not found", s)) ∧
    (∀ b, findBook s bid = some b → b.qty ≤ 0 →
      loan_book today s bid br ld = .error (.valueError "no copies available", s)) ∧
    (∀ b, findBook s bid = some b → 0 < b.qty →
      loan_book today s bid br ld = .ok (s.nextLoanId,
        { s with loans := s.loans ++ [⟨s.nextLoanId, bid, br, ld.getD today, none⟩],
                 nextLoanId := s.nextLoanId + 1,
                 books := updateQty s.books bid (-1) }) ∧
      qtyOf { s with loans := s.loans ++ [⟨s.nextLoanId, bid, br, ld.getD today, none⟩],
                     nextLoanId := s.nextLoanId + 1,
                     books := updateQty s.books bid (-1) } bid = some (b.qty - 1)) := by
  refine ⟨loan_book_of_not_found today s bid br ld,
    fun b hb hle => loan_book_of_unavailable today s bid br ld b hb hle, ?_⟩
  intro b hb hpos
  have hb' : s.books.find? (fun x => x.id == bid) = some b := by simpa [findBook] using hb
  have hid : (b.id == bid) = true := List.find?_some (p := fun x : Book => x.id == bid) hb'
  refine ⟨loan_book_of_available today s bid br ld b hb hpos, ?_⟩
  show Option.map Book.qty ((updateQty s.books bid (-1)).find? (fun x => x.id == bid)) =
    some (b.qty - 1)
  rw [find?_updateQty, hb']
  simp only [Option.map_some', if_pos hid]
  exact congrArg some (show b.qty + (-1) = b.qty - 1 by ring)

/-- Concrete store for the witnesses: one author, one book (qty 2),
one open loan. -/
def wState : DbState :=
  { authors := [⟨1, "A"⟩], books := [⟨1, "T", 1, 2⟩],
    loans := [⟨1, 1, "pat", "2025-01-01", none⟩],
    nextAuthorId := 2, nextBookId := 2, nextLoanId := 2, fkOn := true }

/-- Witness for C1: the success case of `loan_book_spec` evaluated on
`wState`. -/
theorem loan_book_spec_witness :
    loan_book "2025-02-01" wState 1 "quinn" none = .ok (2,
      { authors := [⟨1, "A"⟩], books := [⟨1, "T", 1, 1⟩],
        loans := [⟨1, 1, "pat", "2025-01-01", none⟩, ⟨2, 1, "quinn", "2025-02-01", none⟩],
        nextAuthorId := 2, nextBookId := 2, nextLoanId := 3, fkOn := true }) ∧
    qtyOf { authors := [⟨1, "A"⟩], books := [⟨1, "T", 1, 1⟩],
            loans := [⟨1, 1, "pat", "2025-01-01", none⟩, ⟨2, 1, "quinn", "2025-02-01", none⟩],
            nextAuthorId := 2, nextBookId := 2, nextLoanId := 3, fkOn := true } 1 = some 1 := by
  have h := (loan_book_spec "2025-02-01" wState 1 "quinn" none).2.2
    ⟨1, "T", 1, 2⟩ rfl (by decide)
  exact ⟨h.1, h.2⟩

/-! ### C5 -/

/-- C5: `add_author` is idempotent — the second call returns the same
identifier and the same store as the first, and (given the UNIQUE
constraint held beforehand) exactly one author row with that name
exists afterwards. -/
theorem add_author_idempotent (s : DbState) (name : String)
    (h : countAuthors s name ≤ 1) :
    (add_author (add_author s name).2 name).1 = (add_author s name).1 ∧
    (add_author (add_author s name).2 name).2 = (add_author s name).2 ∧
    countAuthors (add_author s name).2 name = 1 := by
  cases hany : s.authors.any (fun a => a.name == name) with
  | true =>
    have hs : (add_author s name).2 = s := by
      rw [add_author_of_any_eq_true s name hany]
    refine ⟨by rw [hs], by rw [hs]; exact hs, ?_⟩
    rw [hs]
    obtain ⟨a, ha, hpa⟩ := List.any_eq_true.mp hany
    have hmem : a ∈ s.authors.filter (fun a => a.name == name) :=
      List.mem_filter.mpr ⟨ha, hpa⟩
    have h1 : 1 ≤ countAuthors s name := by
      have := List.length_pos.mpr (List.ne_nil_of_mem hmem)
      simpa [countAuthors] using this
    omega
  | false =>
    have h1 := add_author_of_any_eq_false s name hany
    have hany2 : ((s.authors ++ [Author.mk s.nextAuthorId name]).any
        (fun a => a.name == name)) = true := by
      simp [List.any_append]
    have h2 := add_author_of_any_eq_true
      { s with authors := s.authors ++ [Author.mk s.nextAuthorId name],
               nextAuthorId := s.nextAuthorId + 1 } name hany2
    have hnil : s.authors.filter (fun a => a.name == name) = [] := by
      rw [List.filter_eq_nil_iff]
      intro a ha hpa
      exact absurd ((List.any_eq_true (p := fun a => a.name == name)).mpr ⟨a, ha, hpa⟩)
        (by simp [hany])
    refine ⟨by simp only [h1, h2], by simp only [h1, h2], ?_⟩
    simp only [h1]
    simp [countAuthors, List.filter_append, hnil]

/-- Witness for C5: `add_author_idempotent` on the empty store. -/
theorem add_author_idempotent_witness :
    (add_author (add_author emptyState "X").2 "X").1 = (add_author emptyState "X").1 ∧
    (add_author (add_author emptyState "X").2 "X").2 = (add_author emptyState "X").2 ∧
    countAuthors (add_author emptyState "X").2 "X" = 1 :=
  add_author_idempotent emptyState "X" (by decide)

/-! ### C3 -/

/-- C3: `return_loan` fails with "loan not found" when no loan row has
the requested id, leaving the store unchanged; on success it sets the
loan's return date to the given-or-today date and increments the
referenced book's qty by exactly one; and there is no guard against
double-returning — a second call succeeds again, re-sets the return
date and increments the qty a second time. -/
theorem return_loan_spec (today today2 : String) (s : DbState) (lid : Nat)
    (rd rd2 : Option String) :
    (findLoan s lid = none →
      return_loan today s lid (argOfOpt rd) = .error (.valueError "loan not found", s)) ∧
    (∀ l, findLoan s lid = some l →
      return_loan today s lid (argOfOpt rd) =
        .ok ((), afterReturn s lid (rd.getD today) l.book_id)) ∧
    (∀ l b, findLoan s lid = some l → findBook s l.book_id = some b →
      qtyOf (afterReturn s lid (rd.getD today) l.book_id) l.book_id = some (b.qty + 1) ∧
      return_loan today2 (afterReturn s lid (rd.getD today) l.book_id) lid (argOfOpt rd2) =
        .ok ((), afterReturn (afterReturn s lid (rd.getD today) l.book_id) lid
          (rd2.getD today2) l.book_id) ∧
      qtyOf (afterReturn (afterReturn s lid (rd.getD today) l.book_id) lid
          (rd2.getD today2) l.book_id) l.book_id = some (b.qty + 2) ∧
      findLoan (afterReturn (afterReturn s lid (rd.getD today) l.book_id) lid
          (rd2.getD today2) l.book_id) lid =
        some { l with return_date := some (rd2.getD today2) }) := by
  refine ⟨fun h => by simp [return_loan, pyResolveDate_argOfOpt, h],
    fun l hl => by simp [return_loan, pyResolveDate_argOfOpt, hl, afterReturn], ?_⟩
  intro l b hl hb
  have hl' : s.loans.find? (fun x => x.id == lid) = some l := by simpa [findLoan] using hl
  have hlid : (l.id == lid) = true := List.find?_some (p := fun x : Loan => x.id == lid) hl'
  have hb' : s.books.find? (fun x => x.id == l.book_id) = some b := by
    simpa [findBook] using hb
  have hbid : (b.id == l.book_id) = true :=
    List.find?_some (p := fun x : Book => x.id == l.book_id) hb'
  have heq : l.id = lid := by simpa using hlid
  have hbeq : b.id = l.book_id := by simpa using hbid
  have hfl1 : findLoan (afterReturn s lid (rd.getD today) l.book_id) lid =
      some { l with return_date := some (rd.getD today) } := by
    show (setReturnDate s.loans lid (rd.getD today)).find? (fun x => x.id == lid) = _
    rw [find?_setReturnDate, hl']
    simp [heq]
  refine ⟨?_, ?_, ?_, ?_⟩
  · show Option.map Book.qty
      ((updateQty s.books l.book_id 1).find? (fun x => x.id == l.book_id)) = some (b.qty + 1)
    rw [find?_updateQty, hb']
    simp [hbeq]
  · simp only [return_loan, pyResolveDate_argOfOpt, hfl1]
    simp [afterReturn]
  · show Option.map Book.qty
      ((updateQty (updateQty s.books l.book_id 1) l.book_id 1).find?
        (fun x => x.id == l.book_id)) = some (b.qty + 2)
    rw [find?_updateQty, find?_updateQty, hb']
    simp [hbeq]
    ring
  · show (setReturnDate (setReturnDate s.loans lid (rd.getD today)) lid
      (rd2.getD today2)).find? (fun x => x.id == lid) = _
    rw [find?_setReturnDate, find?_setReturnDate, hl']
    simp [heq]

/-- Witness for C3: `return_loan_spec` on `wState` — returning the open
loan sets its date and bumps the book's qty from 2 to 3. -/
theorem return_loan_spec_witness :
    return_loan "2025-03-01" wState 1 (argOfOpt (some "2025-03-02")) =
      .ok ((), afterReturn wState 1 "2025-03-02" 1) ∧
    qtyOf (afterReturn wState 1 "2025-03-02" 1) 1 = some 3 := by
  have h := return_loan_spec "2025-03-01" "2025-04-01" wState 1 (some "2025-03-02") none
  exact ⟨h.2.1 ⟨1, 1, "pat", "2025-01-01", none⟩ rfl,
    (h.2.2 ⟨1, 1, "pat", "2025-01-01", none⟩ ⟨1, "T", 1, 2⟩ rfl rfl).1⟩

/-! ### C2 -/

/-- A store built through the data layer: schema created, one book
("Dune", qty 2), one loan on it. -/
def c2State : DbState :=
  match loan_book "2024-11-05"
      ((add_book (create_tables emptyState) "Dune" "Frank Herbert" 2).2)
      1 "Sam" (some "2024-11-05") with
  | .ok (_, s) => s
  | .error (_, s) => s

/-- C2: `delete_book` on a fresh connection (as the web app's per-request
`Database(...)` connections are — `__init__` never issues
`PRAGMA foreign_keys = ON`) deletes the book row but does NOT cascade:
the loan row survives as an orphan.  `loans_in_date_range`'s inner join
hides the orphan, but `loan_aggregates` still counts it.  On a
connection that ran `create_tables` the cascade does fire. -/
theorem delete_book_no_cascade_on_fresh_connection :
    (delete_book (newConnection c2State) 1).books = [] ∧
    (delete_book (newConnection c2State) 1).loans =
      [⟨1, 1, "Sam", "2024-11-05", none⟩] ∧
    (loan_aggregates (delete_book (newConnection c2State) 1)).1 = 1 ∧
    loans_in_date_range (delete_book (newConnection c2State) 1)
      "2024-01-01" "2025-12-31" = [] ∧
    (delete_book (create_tables c2State) 1).loans = [] := by
  refine ⟨rfl, rfl, rfl, by decide, rfl⟩

/-! ### C9 — the PATCH /api/loans/{id} handler (webapp.py) -/

/-- The two fields of the PATCH loans payload the handler recognises;
`if not payload` is modelled as both fields absent.  A JSON string
value for `return_date` arrives in Python as `str`. -/
structure PatchLoanPayload where
  return_date : Option String
  borrower : Option String
deriving DecidableEq, Repr

/-- HTTP outcome of a handler: a 200 `{ok:true}`, a 400 with an error
message, or an exception that escapes the handler (Flask answers 500). -/
inductive HttpResp where
  | ok200
  | err400 (msg : String)
  | err500 (msg : String)
deriving DecidableEq, Repr

/-- `api_patch_loan`: if a `return_date` key is present its (string)
value is passed straight to `return_loan`; `except ValueError` turns a
ValueError into a 400, while any other exception (in particular the
AttributeError from `str.isoformat`) escapes as a 500.  A `borrower`
key triggers a direct `UPDATE loans SET borrower = ?` with no
existence check, then 200. -/
def api_patch_loan (today : String) (s : DbState) (lid : Nat)
    (p : PatchLoanPayload) : HttpResp × DbState :=
  if p.return_date.isNone && p.borrower.isNone then (.err400 "no payload", s)
  else
    match (match p.return_date with
           | some rdStr => return_loan today s lid (.strVal rdStr)
           | none => .ok ((), s)) with
    | .error (.valueError m, s') => (.err400 m, s')
    | .error (.attributeError m, s') => (.err500 m, s')
    | .ok (_, s') =>
      match p.borrower with
      | some br =>
        (.ok200, { s' with loans := s'.loans.map (fun l =>
          if l.id == lid then { l with borrower := br } else l) })
      | none => (.ok200, s')

/-- C9: on the existing loan 1, a PATCH whose body carries a (non-empty)
JSON string in `return_date` does not answer 200 — `return_loan` calls
`.isoformat()` on the `str`, the AttributeError is not caught by
`except ValueError`, and the request dies with a 500, the store
untouched.  A borrower-only PATCH does answer 200 and applies the
update, as the claim describes. -/
theorem api_patch_loan_return_date_crashes :
    api_patch_loan "2025-03-01" wState 1 (PatchLoanPayload.mk (some "2025-01-05") none) =
      (.err500 "'str' object has no attribute 'isoformat'", wState) ∧
    api_patch_loan "2025-03-01" wState 1 (PatchLoanPayload.mk none (some "QA2")) =
      (.ok200, { wState with loans := [⟨1, 1, "QA2", "2025-01-01", none⟩] }) := by
  exact ⟨rfl, rfl⟩

/-! ### C4 — reachable states of the data layer -/

/-- One call into the data layer (the six mutating operations the
claim quantifies over). -/
inductive Op where
  | addBook (title author : String) (qty : Int)
  | updateBook (id : Nat) (title author : Option String) (qty : Option Int)
  | deleteBook (id : Nat)
  | loanBook (id : Nat) (borrower : String) (d : Option String)
  | returnLoan (id : Nat) (d : PyDateArg)
  | deleteLoan (id : Nat)

/-- Execute one call; a raised exception leaves the caller with the
store as it was at raise time. -/
def applyOp (today : String) (s : DbState) : Op → DbState
  | .addBook t a q => (add_book s t a q).2
  | .updateBook i t a q => update_book s i t a q
  | .deleteBook i => delete_book s i
  | .loanBook i br d =>
    match loan_book today s i br d with
    | .ok (_, s') => s'
    | .error (_, s') => s'
  | .returnLoan i d =>
    match return_loan today s i d with
    | .ok (_, s') => s'
    | .error (_, s') => s'
  | .deleteLoan i => delete_loan s i

/-- The state after a sequence of data-layer calls on an initialized
empty store. -/
def runOps (today : String) (ops : List Op) : DbState :=
  ops.foldl (applyOp today) (create_tables emptyState)

/-- The caller never passes a negative quantity to `add_book` or
`update_book` (the data layer itself does not check this). -/
def NonNegOp : Op → Prop
  | .addBook _ _ q => 0 ≤ q
  | .updateBook _ _ _ q => match q with | some x => 0 ≤ x | none => True
  | _ => True

/-- Invariant carried through the induction: all quantities are
non-negative, and the `books` table looks like one SQLite can hold
(ids unique and below the autoincrement counter). -/
def GoodBooks (s : DbState) : Prop :=
  (∀ b ∈ s.books, 0 ≤ b.qty) ∧ (∀ b ∈ s.books, b.id < s.nextBookId) ∧
  (s.books.map Book.id).Nodup

theorem add_author_snd_books (s : DbState) (n : String) :
    ((add_author s n).2).books = s.books := by
  simp only [add_author]
  split <;> rfl

theorem add_author_snd_nextBookId (s : DbState) (n : String) :
    ((add_author s n).2).nextBookId = s.nextBookId := by
  simp only [add_author]
  split <;> rfl

theorem add_book_snd_books (s : DbState) (t a : String) (q : Int) :
    ((add_book s t a q).2).books =
      s.books ++ [Book.mk s.nextBookId t (add_author s a).1 q] := by
  show (add_author s a).2.books ++ [Book.mk ((add_author s a).2).nextBookId t _ q] = _
  rw [add_author_snd_books, add_author_snd_nextBookId]

theorem add_book_snd_nextBookId (s : DbState) (t a : String) (q : Int) :
    ((add_book s t a q).2).nextBookId = s.nextBookId + 1 := by
  show ((add_author s a).2).nextBookId + 1 = _
  rw [add_author_snd_nextBookId]

theorem map_key_eq {α β : Type} (key : α → β) (f : α → α)
    (hf : ∀ a, key (f a) = key a) (l : List α) :
    (l.map f).map key = l.map key := by
  rw [List.map_map]
  exact List.map_congr_left (fun a _ => hf a)

/-- A state whose books are an id-preserving, nonnegativity-preserving
image of a good state's books is itself good. -/
theorem goodBooks_of_map (s s' : DbState) (upd : Book → Book)
    (hbooks : s'.books = s.books.map upd)
    (hnext : s'.nextBookId = s.nextBookId)
    (hid : ∀ b, (upd b).id = b.id)
    (hg : GoodBooks s)
    (hqty : ∀ b ∈ s.books, 0 ≤ (upd b).qty) : GoodBooks s' := by
  obtain ⟨h1, h2, h3⟩ := hg
  refine ⟨?_, ?_, ?_⟩
  · intro b hb
    rw [hbooks] at hb
    obtain ⟨b₀, hb₀, rfl⟩ := List.mem_map.mp hb
    exact hqty b₀ hb₀
  · intro b hb
    rw [hbooks] at hb
    rw [hnext]
    obtain ⟨b₀, hb₀, rfl⟩ := List.mem_map.mp hb
    rw [hid]
    exact h2 b₀ hb₀
  · rw [hbooks, map_key_eq Book.id upd hid]
    exact h3

/-- `loan_book` via `applyOp` either leaves the store unchanged (one of
the two errors) or applies the insert-and-decrement pair. -/
theorem applyOp_loanBook_cases (today : String) (s : DbState) (i : Nat)
    (br : String) (d : Option String) :
    applyOp today s (.loanBook i br d) = s ∨
    ∃ b, findBook s i = some b ∧ 0 < b.qty ∧
      applyOp today s (.loanBook i br d) =
        { s with loans := s.loans ++ [⟨s.nextLoanId, i, br, d.getD today, none⟩],
                 nextLoanId := s.nextLoanId + 1,
                 books := updateQty s.books i (-1) } := by
  rcases hfb : findBook s i with _ | b
  · left
    simp [applyOp, loan_book, hfb]
  · by_cases hle : b.qty ≤ 0
    · left
      simp [applyOp, loan_book, hfb, hle]
    · right
      exact ⟨b, rfl, not_le.mp hle, by simp [applyOp, loan_book, hfb, hle]⟩

/-- `return_loan` via `applyOp` either leaves the store unchanged or
applies the stamp-and-increment pair. -/
theorem applyOp_returnLoan_cases (today : String) (s : DbState) (i : Nat)
    (d : PyDateArg) :
    applyOp today s (.returnLoan i d) = s ∨
    ∃ l rd, findLoan s i = some l ∧
      applyOp today s (.returnLoan i d) =
        { s with loans := setReturnDate s.loans i rd,
                 books := updateQty s.books l.book_id 1 } := by
  rcases hrd : pyResolveDate today d with e | rd
  · left
    simp [applyOp, return_loan, hrd]
  · rcases hfl : findLoan s i with _ | l
    · left
      simp [applyOp, return_loan, hrd, hfl]
    · right
      exact ⟨l, rd, rfl, by simp [applyOp, return_loan, hrd, hfl]⟩

/-- Each data-layer call keeps the book-table invariant, provided any
caller-supplied quantity is non-negative. -/
theorem goodBooks_applyOp (today : String) (s : DbState) (op : Op)
    (hg : GoodBooks s) (hop : NonNegOp op) :
    GoodBooks (applyOp today s op) := by
  obtain ⟨h1, h2, h3⟩ := hg
  cases op with
  | addBook t a q =>
    show GoodBooks (add_book s t a q).2
    refine ⟨?_, ?_, ?_⟩
    · intro b hb
      rcases List.mem_append.mp (by rwa [add_book_snd_books] at hb) with h | h
      · exact h1 b h
      · rw [List.mem_singleton.mp h]
        exact hop
    · intro b hb
      rw [add_book_snd_nextBookId]
      rcases List.mem_append.mp (by rwa [add_book_snd_books] at hb) with h | h
      · exact lt_trans (h2 b h) (Nat.lt_succ_self _)
      · rw [List.mem_singleton.mp h]
        exact Nat.lt_succ_self _
    · rw [add_book_snd_books, List.map_append]
      rw [List.nodup_append]
      refine ⟨h3, List.nodup_singleton _, ?_⟩
      intro x hx hx'
      obtain ⟨b₀, hb₀, rfl⟩ := List.mem_map.mp hx
      have hlt := h2 b₀ hb₀
      have hxeq : b₀.id = s.nextBookId := by simpa using hx'
      omega
  | updateBook i t a q =>
    show GoodBooks (update_book s i t a q)
    cases hcond : (t.isNone && a.isNone && q.isNone) with
    | true =>
      have hupd : update_book s i t a q = s := by
        simp only [update_book]
        rw [if_pos hcond]
      rw [hupd]
      exact ⟨h1, h2, h3⟩
    | false =>
      have hnottrue : ¬((t.isNone && a.isNone && q.isNone) = true) := by simp [hcond]
      cases a with
      | none =>
        have hupd : update_book s i t none q =
            { s with books := s.books.map (fun b =>
              if b.id == i then
                { b with
                  title := t.getD b.title,
                  author_id := b.author_id,
                  qty := q.getD b.qty }
              else b) } := by
          simp only [update_book]
          rw [if_neg hnottrue]
          rfl
        rw [hupd]
        refine goodBooks_of_map s _ _ rfl rfl
          (fun b => by cases h : (b.id == i) <;> simp [h]) ⟨h1, h2, h3⟩ ?_
        intro b hb
        cases h : (b.id == i)
        · simpa [h] using h1 b hb
        · cases q with
          | none => simpa [h] using h1 b hb
          | some x => simpa [h] using hop
      | some an =>
        have hupd : update_book s i t (some an) q =
            { (add_author s an).2 with books := (add_author s an).2.books.map (fun b =>
              if b.id == i then
                { b with
                  title := t.getD b.title,
                  author_id := (add_author s an).1,
                  qty := q.getD b.qty }
              else b) } := by
          simp only [update_book]
          rw [if_neg hnottrue]
          rfl
        rw [hupd]
        refine goodBooks_of_map s _
          (fun b =>
            if b.id == i then
              { b with
                title := t.getD b.title,
                author_id := (add_author s an).1,
                qty := q.getD b.qty }
            else b) ?_ ?_
          (fun b => by cases h : (b.id == i) <;> simp [h]) ⟨h1, h2, h3⟩ ?_
        · show (add_author s an).2.books.map _ = s.books.map _
          rw [add_author_snd_books]
        · show (add_author s an).2.nextBookId = s.nextBookId
          rw [add_author_snd_nextBookId]
        · intro b hb
          cases h : (b.id == i)
          · simpa [h] using h1 b hb
          · cases q with
            | none => simpa [h] using h1 b hb
            | some x => simpa [h] using hop
  | deleteBook i =>
    show GoodBooks (delete_book s i)
    have hbooks : (delete_book s i).books = s.books.filter (fun b => !(b.id == i)) := by
      simp only [delete_book]
      split <;> rfl
    have hnext : (delete_book s i).nextBookId = s.nextBookId := by
      simp only [delete_book]
      split <;> rfl
    refine ⟨?_, ?_, ?_⟩
    · intro b hb
      rw [hbooks] at hb
      exact h1 b (List.mem_of_mem_filter hb)
    · intro b hb
      rw [hbooks] at hb
      rw [hnext]
      exact h2 b (List.mem_of_mem_filter hb)
    · rw [hbooks]
      exact List.Nodup.sublist ((List.filter_sublist _).map Book.id) h3
  | loanBook i br d =>
    rcases applyOp_loanBook_cases today s i br d with heq | ⟨b, hfb, hpos, heq⟩
    · rw [heq]
      exact ⟨h1, h2, h3⟩
    · rw [heq]
      have hb' : s.books.find? (fun x => x.id == i) = some b := by simpa [findBook] using hfb
      have hbmem : b ∈ s.books := List.mem_of_find?_eq_some hb'
      have hbid : b.id = i := by
        simpa using List.find?_some (p := fun x : Book => x.id == i) hb'
      refine goodBooks_of_map s _ _ rfl rfl
        (fun x => by cases h : (x.id == i) <;> simp [h]) ⟨h1, h2, h3⟩ ?_
      intro b₀ hb₀
      cases h : (b₀.id == i)
      · simpa [h] using h1 b₀ hb₀
      · have hbeq : b₀ = b := by
          apply List.inj_on_of_nodup_map h3 hb₀ hbmem
          rw [hbid]
          simpa using h
        simp only [h, if_true]
        rw [hbeq]
        simp
        omega
  | returnLoan i d =>
    rcases applyOp_returnLoan_cases today s i d with heq | ⟨l, rd, hfl, heq⟩
    · rw [heq]
      exact ⟨h1, h2, h3⟩
    · rw [heq]
      refine goodBooks_of_map s _ _ rfl rfl
        (fun x => by cases h : (x.id == l.book_id) <;> simp [h]) ⟨h1, h2, h3⟩ ?_
      intro b₀ hb₀
      cases h : (b₀.id == l.book_id)
      · simpa [h] using h1 b₀ hb₀
      · have := h1 b₀ hb₀
        simp only [h, if_true]
        simp
        omega
  | deleteLoan i =>
    exact ⟨h1, h2, h3⟩

/-- C4 (amended): along any sequence of the six data-layer operations
in which every quantity handed to `add_book` or `update_book` is ≥ 0,
every book row's qty stays ≥ 0 — `loan_book` only decrements a qty it
checked to be positive, and `return_loan` only increments. -/
theorem qty_nonneg_invariant (today : String) (ops : List Op)
    (h : ∀ op ∈ ops, NonNegOp op) :
    ∀ b ∈ (runOps today ops).books, 0 ≤ b.qty := by
  suffices H : ∀ (l : List Op), (∀ op ∈ l, NonNegOp op) → ∀ (s : DbState), GoodBooks s →
      GoodBooks (l.foldl (applyOp today) s) by
    have h0 : GoodBooks (create_tables emptyState) := by
      refine ⟨?_, ?_, ?_⟩ <;> simp [create_tables, emptyState]
    exact (H ops h _ h0).1
  intro l
  induction l with
  | nil =>
    intro _ s hs
    simpa using hs
  | cons op rest ih =>
    intro hall s hs
    simp only [List.foldl_cons]
    exact ih (fun o ho => hall o (List.mem_cons_of_mem _ ho)) _
      (goodBooks_applyOp today s op hs (hall op (List.mem_cons_self _ _)))

/-- C4 counterexample: the data layer happily stores a negative
quantity — one `add_book` call with qty −1 reaches a state whose book
row has qty −1 < 0. -/
theorem qty_nonneg_counterexample :
    ¬ ∀ b ∈ (runOps "2025-01-01" [Op.addBook "t" "a" (-1)]).books, 0 ≤ b.qty := by
  decide

/-- Witness for C4 (amended): two well-behaved calls (add with qty 2,
then one loan) leave the single book at qty 1 ≥ 0. -/
theorem qty_nonneg_invariant_witness :
    (0 : Int) ≤ (Book.mk 1 "t" 1 1).qty :=
  qty_nonneg_invariant "2025-01-01" [Op.addBook "t" "a" 2, Op.loanBook 1 "u" none]
    (by
      intro op hop
      fin_cases hop <;> simp [NonNegOp])
    (Book.mk 1 "t" 1 1) (by decide)

/-! ### Counting lemmas shared by C6 and C7 -/

theorem sum_map_ite_eq_count {K : Type} [DecidableEq K] (keys : List K) (a : K) :
    (keys.map (fun k => if a = k then 1 else 0)).sum = keys.count a := by
  induction keys with
  | nil => simp
  | cons k ks ih =>
    by_cases h : a = k
    · subst h
      simp [List.count_cons, ih, Nat.add_comm]
    · simp [List.count_cons, h, ih]

theorem sum_map_add_distrib {K : Type} (g₁ g₂ : K → Nat) (L : List K) :
    (L.map (fun k => g₁ k + g₂ k)).sum = (L.map g₁).sum + (L.map g₂).sum := by
  induction L with
  | nil => simp
  | cons x xs ih =>
    simp only [List.map_cons, List.sum_cons, ih]
    omega

/-- Partitioning a list by a key that ranges over a duplicate-free
cover: per-key group sizes add up to the whole. -/
theorem sum_counts_eq_length {K I : Type} [DecidableEq K] (keys : List K) (items : List I)
    (f : I → K) (hnd : keys.Nodup) (hcov : ∀ i ∈ items, f i ∈ keys) :
    (keys.map (fun k => (items.filter (fun i => f i == k)).length)).sum = items.length := by
  induction items with
  | nil => simp
  | cons i is ih =>
    have hcov' : ∀ j ∈ is, f j ∈ keys := fun j hj => hcov j (List.mem_cons_of_mem _ hj)
    have hmem : f i ∈ keys := hcov i (List.mem_cons_self _ _)
    have hsplit : (keys.map (fun k => ((i :: is).filter (fun j => f j == k)).length)) =
        (keys.map (fun k =>
          (if f i = k then 1 else 0) + (is.filter (fun j => f j == k)).length)) := by
      apply List.map_congr_left
      intro k _
      by_cases h : f i = k
      · simp [List.filter_cons, h]
        omega
      · simp [List.filter_cons, h]
    rw [hsplit, sum_map_add_distrib, sum_map_ite_eq_count keys (f i),
      List.count_eq_one_of_mem hnd hmem, ih hcov']
    simp [Nat.add_comm]

/-! ### C6 -/

/-- C6 (amended): `loan_aggregates` returns the number of loan rows
currently in the loans table (returned loans included, deleted ones
gone), and the average is that total divided by the number of distinct
book ids among the current loans — 0 when the table is empty. -/
theorem loan_aggregates_spec (s : DbState) :
    (loan_aggregates s).1 = s.loans.length ∧
    (s.loans = [] → (loan_aggregates s).2 = 0) ∧
    (s.loans ≠ [] → (loan_aggregates s).2 =
      (s.loans.length : ℚ) / (((s.loans.map Loan.book_id).dedup.length : ℚ))) := by
  refine ⟨rfl, ?_, ?_⟩
  · intro h
    simp [loan_aggregates, h]
  · intro h
    have hsum : ((s.loans.map Loan.book_id).dedup.map
        (fun bid => (s.loans.filter (fun l => l.book_id == bid)).length)).sum
        = s.loans.length :=
      sum_counts_eq_length _ _ _ (List.nodup_dedup _)
        (fun l hl => List.mem_dedup.mpr (List.mem_map_of_mem _ hl))
    have hne : (s.loans.map Loan.book_id).dedup ≠ [] := by
      cases hl : s.loans with
      | nil => exact absurd hl h
      | cons a as =>
        intro hd
        have hmem : a.book_id ∈ (s.loans.map Loan.book_id).dedup :=
          List.mem_dedup.mpr (List.mem_map_of_mem _ (hl ▸ List.mem_cons_self _ _))
        rw [hl, hd] at hmem
        exact absurd hmem (List.not_mem_nil _)
    show (if _ = true then (0 : ℚ) else _) = _
    rw [if_neg (by simp [List.isEmpty_iff, List.map_eq_nil_iff, hne])]
    rw [hsum, List.length_map]

/-- Store with one book (id 1, qty 2), used for the C6 counterexample. -/
def c6Base : DbState := (add_book (create_tables emptyState) "A" "X" 2).2

/-- The same store after one successful `loan_book` call. -/
def c6Loaned : DbState :=
  match loan_book "2025-03-01" c6Base 1 "u1" none with
  | .ok (_, s) => s
  | .error (_, s) => s

/-- C6 counterexample: one loan row was created (the successful
`loan_book` call shown), then `delete_loan` removed it; `loan_aggregates`
now reports 0 total loans, not the 1 ever created. -/
theorem loan_aggregates_counterexample :
    loan_book "2025-03-01" c6Base 1 "u1" none = .ok (1, c6Loaned) ∧
    (loan_aggregates (delete_loan c6Loaned 1)).1 = 0 := ⟨rfl, rfl⟩

/-- Witness for C6 (amended): `loan_aggregates_spec` on the nonempty
store `wState`. -/
theorem loan_aggregates_spec_witness :
    (loan_aggregates wState).1 = wState.loans.length ∧
    (loan_aggregates wState).2 =
      (wState.loans.length : ℚ) / (((wState.loans.map Loan.book_id).dedup.length : ℚ)) :=
  ⟨(loan_aggregates_spec wState).1, (loan_aggregates_spec wState).2.2 (by decide)⟩

/-! ### C7 -/

theorem map_filterMap_proj {β γ : Type} (books : List Book) (f : Book → Option β)
    (proj : β → γ) (g : Book → γ)
    (hf : ∀ b ∈ books, ∃ r, f b = some r ∧ proj r = g b) :
    (books.filterMap f).map proj = books.map g := by
  induction books with
  | nil => rfl
  | cons b bs ih =>
    obtain ⟨r, hr, hpr⟩ := hf b (List.mem_cons_self _ _)
    simp only [List.filterMap_cons, hr, List.map_cons, hpr]
    rw [ih (fun x hx => hf x (List.mem_cons_of_mem _ hx))]

/-- C7 (amended): on a store satisfying the schema's integrity
invariants (unique book ids, every loan's book exists, every book's
author exists — all guaranteed by SQLite whenever foreign keys are
enforced), `book_loan_counts` has exactly one row per book, is sorted
by descending times_loaned, and its counts sum to
`loan_aggregates`'s totalLoans. -/
theorem book_loan_counts_spec (s : DbState)
    (hnd : (s.books.map Book.id).Nodup)
    (href : ∀ l ∈ s.loans, l.book_id ∈ s.books.map Book.id)
    (hauth : ∀ b ∈ s.books, b.author_id ∈ s.authors.map Author.id) :
    ((book_loan_counts s).map (fun r => r.1)).Perm (s.books.map Book.id) ∧
    List.Sorted (fun x y => y.2.2.2 ≤ x.2.2.2) (book_loan_counts s) ∧
    ((book_loan_counts s).map (fun r => r.2.2.2)).sum = (loan_aggregates s).1 := by
  have hfind : ∀ b ∈ s.books,
      ∃ a, s.authors.find? (fun a => a.id == b.author_id) = some a := by
    intro b hb
    obtain ⟨a, ha, haeq⟩ := List.mem_map.mp (hauth b hb)
    have hsome : (s.authors.find? (fun x => x.id == b.author_id)).isSome := by
      rw [List.find?_isSome]
      exact ⟨a, ha, by simp [haeq]⟩
    exact Option.isSome_iff_exists.mp hsome
  have hperm : (book_loan_counts s).Perm (s.books.filterMap (fun b =>
      (s.authors.find? (fun a => a.id == b.author_id)).map
        (fun a => (b.id, b.title, a.name,
          (s.loans.filter (fun l => l.book_id == b.id)).length)))) := by
    show (List.insertionSort _ _).Perm _
    exact List.perm_insertionSort _ _
  have hids : ((s.books.filterMap (fun b =>
      (s.authors.find? (fun a => a.id == b.author_id)).map
        (fun a => (b.id, b.title, a.name,
          (s.loans.filter (fun l => l.book_id == b.id)).length)))).map
      (fun r => r.1)) = s.books.map Book.id := by
    apply map_filterMap_proj
    intro b hb
    obtain ⟨a, ha⟩ := hfind b hb
    exact ⟨_, by rw [ha]; rfl, rfl⟩
  have hcnts : ((s.books.filterMap (fun b =>
      (s.authors.find? (fun a => a.id == b.author_id)).map
        (fun a => (b.id, b.title, a.name,
          (s.loans.filter (fun l => l.book_id == b.id)).length)))).map
      (fun r => r.2.2.2)) =
      s.books.map (fun b => (s.loans.filter (fun l => l.book_id == b.id)).length) := by
    apply map_filterMap_proj
    intro b hb
    obtain ⟨a, ha⟩ := hfind b hb
    exact ⟨_, by rw [ha]; rfl, rfl⟩
  refine ⟨?_, ?_, ?_⟩
  · rw [← hids]
    exact hperm.map _
  · haveI hTot : IsTotal (Nat × String × String × Nat)
        (fun x y => y.2.2.2 ≤ x.2.2.2) := ⟨fun a b => Nat.le_total b.2.2.2 a.2.2.2⟩
    haveI hTrans : IsTrans (Nat × String × String × Nat)
        (fun x y => y.2.2.2 ≤ x.2.2.2) := ⟨fun a b c hab hbc => le_trans hbc hab⟩
    show List.Sorted _ (List.insertionSort _ _)
    exact List.sorted_insertionSort _ _
  · rw [(hperm.map (fun r => r.2.2.2)).sum_eq, hcnts]
    have hcomp : s.books.map (fun b => (s.loans.filter (fun l => l.book_id == b.id)).length) =
        (s.books.map Book.id).map (fun k => (s.loans.filter (fun l => l.book_id == k)).length) := by
      rw [List.map_map]
      rfl
    rw [hcomp, sum_counts_eq_length _ _ _ hnd href]
    rfl

/-- C7 counterexample: the orphan-loan state reachable through the
missing-cascade bug (delete a loaned book on a fresh connection) makes
the sum of `times_loaned` (0) differ from totalLoans (1). -/
theorem book_loan_counts_counterexample :
    ((book_loan_counts (delete_book (newConnection c2State) 1)).map
      (fun r => r.2.2.2)).sum = 0 ∧
    (loan_aggregates (delete_book (newConnection c2State) 1)).1 = 1 := ⟨rfl, rfl⟩

/-- Witness for C7 (amended): `book_loan_counts_spec` on `wState`. -/
theorem book_loan_counts_spec_witness :
    ((book_loan_counts wState).map (fun r => r.1)).Perm (wState.books.map Book.id) ∧
    List.Sorted (fun x y => y.2.2.2 ≤ x.2.2.2) (book_loan_counts wState) ∧
    ((book_loan_counts wState).map (fun r => r.2.2.2)).sum = (loan_aggregates wState).1 :=
  book_loan_counts_spec wState (by decide) (by decide) (by decide)

/-! ### C8 -/

/-- Run `loan_book` once per borrower, stopping with `none` the moment
a call raises. -/
def loanMany (today : String) (bid : Nat) : DbState → List String → Option DbState
  | s, [] => some s
  | s, br :: rest =>
    match loan_book today s bid br none with
    | .ok (_, s') => loanMany today bid s' rest
    | .error _ => none

/-- C8: a book holding quantity Q can be loaned exactly Q times — every
call succeeds, the quantity ends at 0, and the (Q+1)-th call raises
"no copies available" leaving the store as it was. -/
theorem loan_book_exhausts (today : String) (bid : Nat) (brs : List String) :
    ∀ (s : DbState) (b : Book), findBook s bid = some b → b.qty = (brs.length : Int) →
    (loanMany today bid s brs).isSome = true ∧
    qtyOf ((loanMany today bid s brs).getD s) bid = some 0 ∧
    ∀ br2, loan_book today ((loanMany today bid s brs).getD s) bid br2 none =
      .error (.valueError "no copies available",
        (loanMany today bid s brs).getD s) := by
  induction brs with
  | nil =>
    intro s b hf hq
    have hq0 : b.qty = 0 := by simpa using hq
    refine ⟨rfl, ?_, ?_⟩
    · simp [loanMany, qtyOf, hf, hq0]
    · intro br2
      simp only [loanMany, Option.getD_some]
      exact loan_book_of_unavailable today s bid br2 none b hf (le_of_eq hq0)
  | cons br rest ih =>
    intro s b hf hq
    have hpos : 0 < b.qty := by
      rw [hq]
      exact_mod_cast Nat.succ_pos rest.length
    have hsucc := loan_book_of_available today s bid br none b hf hpos
    have hb' : s.books.find? (fun x => x.id == bid) = some b := by simpa [findBook] using hf
    have hid : (b.id == bid) = true := List.find?_some (p := fun x : Book => x.id == bid) hb'
    have hf' : findBook
        { s with loans := s.loans ++ [⟨s.nextLoanId, bid, br, none.getD today, none⟩],
                 nextLoanId := s.nextLoanId + 1,
                 books := updateQty s.books bid (-1) } bid =
        some { b with qty := b.qty + (-1) } := by
      show (updateQty s.books bid (-1)).find? (fun x => x.id == bid) = _
      rw [find?_updateQty, hb']
      simp [show b.id = bid from by simpa using hid]
    have hq' : ({ b with qty := b.qty + (-1) } : Book).qty = (rest.length : Int) := by
      show b.qty + (-1) = _
      rw [hq]
      push_cast [List.length_cons]
      ring
    have hrec := ih _ _ hf' hq'
    have hLM : loanMany today bid s (br :: rest) =
        loanMany today bid
          { s with loans := s.loans ++ [⟨s.nextLoanId, bid, br, none.getD today, none⟩],
                   nextLoanId := s.nextLoanId + 1,
                   books := updateQty s.books bid (-1) } rest := by
      simp [loanMany, hsucc]
    obtain ⟨sf, hsf⟩ := Option.isSome_iff_exists.mp hrec.1
    rw [hsf] at hrec
    rw [hLM, hsf]
    exact ⟨rfl, hrec.2.1, hrec.2.2⟩

/-- Store with one book of quantity 2 for the C8 witness. -/
def c8State : DbState := (add_book (create_tables emptyState) "B" "Y" 2).2

/-- Witness for C8: two loans on a qty-2 book both succeed, leave the
quantity at 0, and a third attempt fails with "no copies available". -/
theorem loan_book_exhausts_witness :
    (loanMany "2025-01-01" 1 c8State ["u1", "u2"]).isSome = true ∧
    qtyOf ((loanMany "2025-01-01" 1 c8State ["u1", "u2"]).getD c8State) 1 = some 0 ∧
    loan_book "2025-01-01" ((loanMany "2025-01-01" 1 c8State ["u1", "u2"]).getD c8State)
        1 "u3" none =
      .error (.valueError "no copies available",
        (loanMany "2025-01-01" 1 c8State ["u1", "u2"]).getD c8State) := by
  have h := loan_book_exhausts "2025-01-01" 1 ["u1", "u2"] c8State
    (Book.mk 1 "B" 1 2) (by decide) (by decide)
  exact ⟨h.1, h.2.1, h.2.2 "u3"⟩

end LibCat
